import Mathlib

/-!
# Verification of the PTY session manager (`src-tauri/src/pty.rs`)

A shallow embedding of the PTY session manager: the activity state
machine, the channel send helper, the UTF-8 carry-over reader pipeline,
the session registry with its `spawn`/`write`/`resize`/`kill`
operations, and the two cleanup paths that emit terminal exit events.
Bytes are modelled as `Nat` (< 256), strings of the host language as
byte lists, and the registry maps as association lists.
-/

namespace Pty

/-! ## Events (`src-tauri/src/types.rs`) -/

structure TerminalActivityEvent where
  session_id : String
  active : Bool
  deriving DecidableEq, Repr

structure TerminalExitEvent where
  session_id : String
  exit_code : Int
  signal : Option Int
  deriving DecidableEq, Repr

/-! ## Activity state machine (`pty.rs` lines 19-24 and 37-59) -/

inductive ActivitySignal where
  | Data
  | Timeout
  | Disconnected
  deriving DecidableEq, Repr

open ActivitySignal in
/-- Embedding of `update_activity_state` (pty.rs:37-59): a pure transition
function from `(active, signal)` to the next `active` flag and an optional
activity event. -/
def update_activity_state (session_id : String) (active : Bool)
    (signal : ActivitySignal) : Bool × Option TerminalActivityEvent :=
  match active, signal with
  | false, Data => (true, some ⟨session_id, true⟩)
  | true, Timeout => (false, some ⟨session_id, false⟩)
  | true, Disconnected => (false, some ⟨session_id, false⟩)
  | _, _ => (active, none)

/-- The body of the activity-monitor thread (pty.rs:259-280): starting from a
given `active` flag, process one signal per iteration, collect the emitted
events, and stop after processing a `Disconnected` signal. -/
def activityMonitorGo (session_id : String) :
    Bool → List ActivitySignal → List TerminalActivityEvent
  | _, [] => []
  | active, s :: rest =>
    let step := update_activity_state session_id active s
    step.2.toList ++
      (if s = ActivitySignal.Disconnected then []
       else activityMonitorGo session_id step.1 rest)

/-- The activity monitor starts in the inactive state (`let mut active = false`,
pty.rs:261). -/
def activityMonitorRun (session_id : String)
    (signals : List ActivitySignal) : List TerminalActivityEvent :=
  activityMonitorGo session_id false signals

/-! ## Channel send helper (`pty.rs` lines 79-85)

The bounded data channel is modelled by its queue of queued chunks, its
capacity, and whether the receiver is still connected.  `try_send`
succeeds when there is room, reports `Full` when the queue is at
capacity, and reports `Disconnected` when the receiver is gone; the
blocking `send` waits for room (modelled as an eventual append) and only
fails when the receiver is gone. -/

structure Chan where
  queue : List (List Nat)
  capacity : Nat
  connected : Bool
  deriving DecidableEq, Repr

inductive TrySendResult where
  | ok (c : Chan)
  | full
  | disconnected
  deriving DecidableEq, Repr

def Chan.trySend (c : Chan) (data : List Nat) : TrySendResult :=
  if c.connected = false then .disconnected
  else if c.capacity ≤ c.queue.length then .full
  else .ok { c with queue := c.queue ++ [data] }

def Chan.blockingSend (c : Chan) (data : List Nat) : Option Chan :=
  if c.connected then some { c with queue := c.queue ++ [data] } else none

/-- Embedding of `send_output_chunk` (pty.rs:79-85): non-blocking send first,
blocking send if the channel was full, `false` when the channel is
disconnected.  Returns the resulting channel alongside the boolean the reader
loop uses. -/
def send_output_chunk (c : Chan) (data : List Nat) : Bool × Chan :=
  match c.trySend data with
  | .ok c1 => (true, c1)
  | .full =>
    match c.blockingSend data with
    | some c1 => (true, c1)
    | none => (false, c)
  | .disconnected => (false, c)

/-! ## Sessions and the registry (`pty.rs` lines 87-135)

A `PtySession` holds the per-session mutable state the per-session lock
guards: the PTY writer (modelled by its unflushed buffer and the bytes
already flushed to the PTY), the master's dimensions, and the child
process handle (modelled by the result `child.wait()` will produce:
`some s` for an OS exit status, `none` when waiting fails).  The two
registry maps are association lists keyed by session id. -/

structure ChildStatus where
  success : Bool
  deriving DecidableEq, Repr

structure PtySession where
  buffered : List Nat
  flushed : List Nat
  cols : Nat
  rows : Nat
  waitResult : Option ChildStatus
  deriving DecidableEq, Repr

def lookupA {α : Type} (m : List (String × α)) (k : String) : Option α :=
  (m.find? (fun p => p.1 = k)).map Prod.snd

def eraseA {α : Type} (m : List (String × α)) (k : String) : List (String × α) :=
  m.filter (fun p => ¬ p.1 = k)

def insertA {α : Type} (m : List (String × α)) (k : String) (v : α) :
    List (String × α) :=
  (k, v) :: eraseA m k

structure ManagerState where
  sessions : List (String × PtySession)
  session_project_paths : List (String × String)
  exitEvents : List TerminalExitEvent
  deriving DecidableEq, Repr

/-- `PtyManager::get_session` (pty.rs:113-119). -/
def get_session (st : ManagerState) (session_id : String) : Option PtySession :=
  lookupA st.sessions session_id

/-- `PtyManager::remove_session` (pty.rs:122-127): remove from the session map,
returning the session if it existed. -/
def remove_session (st : ManagerState) (session_id : String) :
    Option PtySession × ManagerState :=
  (lookupA st.sessions session_id,
   { st with sessions := eraseA st.sessions session_id })

/-- `PtyManager::project_path_for_session` (pty.rs:129-135). -/
def project_path_for_session (st : ManagerState) (session_id : String) :
    Option String :=
  lookupA st.session_project_paths session_id

/-! ## Exit-code mapping and the two cleanup paths -/

/-- The exit-code mapping both termination paths apply
(`.map(|s| if s.success() { 0 } else { 1 }).unwrap_or(1)`,
pty.rs:395-396 and pty.rs:462-463). -/
def exitCodeFromWait (w : Option ChildStatus) : Int :=
  match w with
  | some s => if s.success then 0 else 1
  | none => 1

/-- `PtyManager::kill` (pty.rs:447-475): remove the session from the map; if it
was absent return `Ok(())` at once (already cleaned up, nothing else touched);
otherwise remove the project path, kill and wait for the child, and emit one
exit event with the mapped exit code and no signal. -/
def kill (st : ManagerState) (session_id : String) :
    Except String Unit × ManagerState :=
  match remove_session st session_id with
  | (none, _) => (.ok (), st)
  | (some sess, st1) =>
    let st2 := { st1 with
      session_project_paths := eraseA st1.session_project_paths session_id }
    let exit_code := exitCodeFromWait sess.waitResult
    (.ok (), { st2 with
      exitEvents := st2.exitEvents ++
        [{ session_id := session_id, exit_code := exit_code, signal := none }] })

/-- The emitter thread's cleanup tail (pty.rs:383-405): remove the session from
both maps (the result of the removal is discarded), wait for the child through
the `Arc` captured at spawn time (`sess` here), and emit an exit event
unconditionally. -/
def emitterCleanup (st : ManagerState) (session_id : String)
    (sess : PtySession) : ManagerState :=
  let st1 := (remove_session st session_id).2
  let st2 := { st1 with
    session_project_paths := eraseA st1.session_project_paths session_id }
  let exit_code := exitCodeFromWait sess.waitResult
  { st2 with
    exitEvents := st2.exitEvents ++
      [{ session_id := session_id, exit_code := exit_code, signal := none }] }

/-! ## write / resize (`pty.rs` lines 423-445) -/

/-- `PtyManager::write` (pty.rs:423-431): not-found error if the session is
absent; otherwise `write_all` the bytes and `flush` before returning. -/
def write (st : ManagerState) (session_id : String) (data : List Nat) :
    Except String Unit × ManagerState :=
  match get_session st session_id with
  | none => (.error ("Session not found: " ++ session_id), st)
  | some sess =>
    let afterWriteAll := { sess with buffered := sess.buffered ++ data }
    let afterFlush := { afterWriteAll with
      buffered := [],
      flushed := afterWriteAll.flushed ++ afterWriteAll.buffered }
    (.ok (), { st with sessions := insertA st.sessions session_id afterFlush })

/-- `PtyManager::resize` (pty.rs:433-445): not-found error if the session is
absent; otherwise apply the new dimensions to the PTY master. -/
def resize (st : ManagerState) (session_id : String) (cols rows : Nat) :
    Except String Unit × ManagerState :=
  match get_session st session_id with
  | none => (.error ("Session not found: " ++ session_id), st)
  | some sess =>
    let sess1 := { sess with cols := cols, rows := rows }
    (.ok (), { st with sessions := insertA st.sessions session_id sess1 })

/-! ## spawn: registry insertion and step order (`pty.rs` lines 137-421) -/

/-- The registry effect of a successful `spawn` (pty.rs:229-243): insert the
new session into the session map and the resolved project path into the side
map.  Both insertions happen before any worker thread is started. -/
def spawnRegister (st : ManagerState) (session_id : String)
    (sess : PtySession) (resolved_project_path : String) : ManagerState :=
  { st with
    sessions := insertA st.sessions session_id sess,
    session_project_paths :=
      insertA st.session_project_paths session_id resolved_project_path }

/-- The externally visible steps of `spawn`'s success path, in source order. -/
inductive SpawnStep where
  | openPty
  | spawnChild
  | takeWriter
  | cloneReader
  | insertSession
  | insertProjectPath
  | startActivityThread
  | startReaderThread
  | startEmitterThread
  | startStartupCommandThread
  | returnOk
  deriving DecidableEq, Repr

/-- The order of `spawn`'s steps on its success path (pty.rs:137-421): PTY and
child setup, then both registry insertions (pty.rs:236-243), then the worker
threads, then the optional startup-command thread, then `Ok(())`. -/
def spawnSteps (startup_command : Option String) : List SpawnStep :=
  [.openPty, .spawnChild, .takeWriter, .cloneReader,
   .insertSession, .insertProjectPath,
   .startActivityThread, .startReaderThread, .startEmitterThread] ++
  (if startup_command.isSome then [.startStartupCommandThread] else []) ++
  [.returnOk]

/-! ## default shell (`pty.rs` lines 26-35 and 160-164)

The environment is modelled as the value of the relevant variable:
`none` when unset, `some s` when set to `s` (possibly empty). -/

/-- `default_shell` on Unix (pty.rs:27-30): `$SHELL`, or `/bin/zsh` when the
variable is unset. -/
def default_shell_unix (shellVar : Option String) : String :=
  shellVar.getD "/bin/zsh"

/-- `default_shell` on Windows (pty.rs:31-34): `%COMSPEC%`, or
`powershell.exe` when the variable is unset. -/
def default_shell_windows (comspecVar : Option String) : String :=
  comspecVar.getD "powershell.exe"

/-- The shell fallback in `spawn` (pty.rs:160-164): an empty `shell` argument
is replaced by the platform default shell, a non-empty one is used as given. -/
def shell_path (shell : String) (platform_default : String) : String :=
  if shell.isEmpty then platform_default else shell

/-! ## UTF-8 validation and the reader thread (`pty.rs` lines 282-317)

Rust's `str::from_utf8` validates greedily, character by character; on
failure, `valid_up_to` is the length of the longest valid prefix, which
is the byte offset where the first ill-formed (or incomplete) sequence
starts.  `utf8DecodeLen` gives the byte length of a well-formed encoded
character at the head of a byte list (`none` when the head is ill-formed
or the list is too short), following the well-formed byte ranges of the
Unicode standard that Rust's validator implements. -/

def isCont (b : Nat) : Bool := 0x80 ≤ b && b < 0xC0

/-- Allowed range of the first continuation byte of a three-byte sequence,
given the lead byte (excludes overlong encodings and surrogates). -/
def cont3first (b c1 : Nat) : Bool :=
  if b = 0xE0 then 0xA0 ≤ c1 && c1 < 0xC0
  else if b = 0xED then 0x80 ≤ c1 && c1 < 0xA0
  else isCont c1

/-- Allowed range of the first continuation byte of a four-byte sequence,
given the lead byte (excludes overlong encodings and values above U+10FFFF). -/
def cont4first (b c1 : Nat) : Bool :=
  if b = 0xF0 then 0x90 ≤ c1 && c1 < 0xC0
  else if b = 0xF4 then 0x80 ≤ c1 && c1 < 0x90
  else isCont c1

/-- A well-formed one-byte character (ASCII). -/
def utf8Char1 (b : Nat) : Bool := b < 0x80

/-- A well-formed two-byte character: lead in `0xC2..0xDF` plus one
continuation byte. -/
def utf8Char2 (b c1 : Nat) : Bool := 0xC2 ≤ b && b < 0xE0 && isCont c1

/-- A well-formed three-byte character: lead in `0xE0..0xEF` plus two
continuation bytes, the first restricted by the lead. -/
def utf8Char3 (b c1 c2 : Nat) : Bool :=
  0xE0 ≤ b && b < 0xF0 && cont3first b c1 && isCont c2

/-- A well-formed four-byte character: lead in `0xF0..0xF4` plus three
continuation bytes, the first restricted by the lead. -/
def utf8Char4 (b c1 c2 c3 : Nat) : Bool :=
  0xF0 ≤ b && b < 0xF5 && cont4first b c1 && isCont c2 && isCont c3

/-- Byte length of the well-formed UTF-8 character at the head of `l`, or
`none` if the head is not a complete well-formed character (the four lead-byte
ranges are mutually exclusive, so at most one alternative applies). -/
def utf8DecodeLen : List Nat → Option Nat
  | [] => none
  | [b] => if utf8Char1 b then some 1 else none
  | [b, c1] =>
    if utf8Char1 b then some 1
    else if utf8Char2 b c1 then some 2
    else none
  | [b, c1, c2] =>
    if utf8Char1 b then some 1
    else if utf8Char2 b c1 then some 2
    else if utf8Char3 b c1 c2 then some 3
    else none
  | b :: c1 :: c2 :: c3 :: _ =>
    if utf8Char1 b then some 1
    else if utf8Char2 b c1 then some 2
    else if utf8Char3 b c1 c2 then some 3
    else if utf8Char4 b c1 c2 c3 then some 4
    else none

/-- Greedy UTF-8 validation with explicit fuel (any fuel at least the length
of the list gives the true answer). -/
def utf8ValidUpToF : Nat → List Nat → Nat
  | 0, _ => 0
  | fuel + 1, l =>
    match utf8DecodeLen l with
    | none => 0
    | some k => k + utf8ValidUpToF fuel (l.drop k)

/-- Length of the longest valid-UTF-8 prefix of `l`: the model of Rust's
`Utf8Error::valid_up_to` (and of `from_utf8` succeeding when it equals
`l.length`). -/
def utf8ValidUpTo (l : List Nat) : Nat := utf8ValidUpToF l.length l

/-- `l` is valid UTF-8 (`str::from_utf8` succeeds). -/
def Utf8Valid (l : List Nat) : Prop := utf8ValidUpTo l = l.length

instance (l : List Nat) : Decidable (Utf8Valid l) := by
  unfold Utf8Valid; infer_instance

/-- One iteration of the reader loop's chunk handling (pty.rs:289-313): the
carry is prepended to the new read, the longest valid-UTF-8 prefix of the
combined bytes is sent on the data channel (only when non-empty), and the
remainder becomes the new carry. -/
def readerStep (carry chunk : List Nat) : List (List Nat) × List Nat :=
  let combined := carry ++ chunk
  let valid_up_to := utf8ValidUpTo combined
  ((if valid_up_to > 0 then [combined.take valid_up_to] else []),
   combined.drop valid_up_to)

/-- The reader loop over a whole sequence of reads (pty.rs:283-317): returns
the chunks sent on the data channel, in order, and the final carry. -/
def readerRun (carry : List Nat) :
    List (List Nat) → List (List Nat) × List Nat
  | [] => ([], carry)
  | chunk :: rest =>
    let step := readerStep carry chunk
    let tail := readerRun step.2 rest
    (step.1 ++ tail.1, tail.2)

/-- The emitter thread (pty.rs:326-381) turns the sequence of channel chunks
into batches: each emitted batch is the concatenation of a consecutive group
of channel chunks, in order.  A batching of the channel chunks is any list of
groups whose flattening is the chunk sequence; `emitterBatches` maps it to the
emitted text batches. -/
def emitterBatches (groups : List (List (List Nat))) : List (List Nat) :=
  groups.map (fun g => g.flatten)

/-! ## signal_foreground -/

/-- Modelled from the spec: `signal_foreground` (spec §4.5, §6) is listed among
the operations of this component but its implementation is not under `src/`.
Following the spec's words: fail with not-found if the session is absent;
otherwise enumerate the shell's direct children (`children`: the outcome of
platform process-tree introspection, which may fail) and deliver an interrupt
to each (`deliver`: per-child delivery outcome); enumeration failure and
per-child delivery failures are non-fatal and the call returns success. -/
def signal_foreground (st : ManagerState) (session_id : String)
    (children : Except Unit (List Nat)) (deliver : Nat → Bool) :
    Except String Unit :=
  match get_session st session_id with
  | none => .error ("Session not found: " ++ session_id)
  | some _ =>
    match children with
    | .error _ => .ok ()
    | .ok pids =>
      let _ := pids.map deliver
      .ok ()

/-! ## Lemmas on UTF-8 validation -/

theorem utf8DecodeLen_pos {l : List Nat} {k : Nat}
    (h : utf8DecodeLen l = some k) : 1 ≤ k ∧ k ≤ l.length := by
  match l with
  | [] => simp [utf8DecodeLen] at h
  | [b] =>
    simp only [utf8DecodeLen] at h
    split_ifs at h <;> simp_all
  | [b, c1] =>
    simp only [utf8DecodeLen] at h
    split_ifs at h <;> simp_all <;> omega
  | [b, c1, c2] =>
    simp only [utf8DecodeLen] at h
    split_ifs at h <;> simp_all <;> omega
  | b :: c1 :: c2 :: c3 :: t =>
    simp only [utf8DecodeLen] at h
    split_ifs at h <;> simp_all <;> omega

theorem utf8DecodeLen_take_append {l : List Nat} {k : Nat} (r : List Nat)
    (h : utf8DecodeLen l = some k) :
    utf8DecodeLen (l.take k ++ r) = some k := by
  match l with
  | [] => simp [utf8DecodeLen] at h
  | [b] =>
    simp only [utf8DecodeLen] at h
    split_ifs at h with h1
    · cases h
      rcases r with _ | ⟨x, _ | ⟨y, _ | ⟨z, r⟩⟩⟩ <;> simp [utf8DecodeLen, h1]
  | [b, c1] =>
    simp only [utf8DecodeLen] at h
    split_ifs at h with h1 h2
    · cases h
      rcases r with _ | ⟨x, _ | ⟨y, _ | ⟨z, r⟩⟩⟩ <;> simp [utf8DecodeLen, h1]
    · cases h
      rcases r with _ | ⟨x, _ | ⟨y, r⟩⟩ <;> simp [utf8DecodeLen, h1, h2]
  | [b, c1, c2] =>
    simp only [utf8DecodeLen] at h
    split_ifs at h with h1 h2 h3
    · cases h
      rcases r with _ | ⟨x, _ | ⟨y, _ | ⟨z, r⟩⟩⟩ <;> simp [utf8DecodeLen, h1]
    · cases h
      rcases r with _ | ⟨x, _ | ⟨y, r⟩⟩ <;> simp [utf8DecodeLen, h1, h2]
    · cases h
      rcases r with _ | ⟨x, r⟩ <;> simp [utf8DecodeLen, h1, h2, h3]
  | b :: c1 :: c2 :: c3 :: t =>
    simp only [utf8DecodeLen] at h
    split_ifs at h with h1 h2 h3 h4
    · cases h
      rcases r with _ | ⟨x, _ | ⟨y, _ | ⟨z, r⟩⟩⟩ <;> simp [utf8DecodeLen, h1]
    · cases h
      rcases r with _ | ⟨x, _ | ⟨y, r⟩⟩ <;> simp [utf8DecodeLen, h1, h2]
    · cases h
      rcases r with _ | ⟨x, r⟩ <;> simp [utf8DecodeLen, h1, h2, h3]
    · cases h
      simp [utf8DecodeLen, h1, h2, h3, h4]

theorem utf8DecodeLen_append {l r : List Nat} {k : Nat}
    (h : utf8DecodeLen l = some k) : utf8DecodeLen (l ++ r) = some k := by
  have h2 := utf8DecodeLen_take_append (l.drop k ++ r) h
  rwa [← List.append_assoc, List.take_append_drop] at h2

theorem utf8ValidUpToF_nil (fuel : Nat) : utf8ValidUpToF fuel [] = 0 := by
  cases fuel <;> simp [utf8ValidUpToF, utf8DecodeLen]

theorem utf8ValidUpTo_nil : utf8ValidUpTo [] = 0 := rfl

theorem utf8ValidUpToF_congr : ∀ (f1 f2 : Nat) (l : List Nat),
    l.length ≤ f1 → l.length ≤ f2 →
    utf8ValidUpToF f1 l = utf8ValidUpToF f2 l := by
  intro f1
  induction f1 with
  | zero =>
    intro f2 l h1 _
    have hl : l = [] := List.eq_nil_of_length_eq_zero (Nat.le_zero.mp h1)
    subst hl
    simp [utf8ValidUpToF_nil]
  | succ f ih =>
    intro f2 l h1 h2
    cases f2 with
    | zero =>
      have hl : l = [] := List.eq_nil_of_length_eq_zero (Nat.le_zero.mp h2)
      subst hl
      simp [utf8ValidUpToF_nil]
    | succ g =>
      cases hd : utf8DecodeLen l with
      | none => simp only [utf8ValidUpToF, hd]
      | some k =>
        simp only [utf8ValidUpToF, hd]
        have hk := utf8DecodeLen_pos hd
        have hdrop1 : (l.drop k).length ≤ f := by
          simp only [List.length_drop]; omega
        have hdrop2 : (l.drop k).length ≤ g := by
          simp only [List.length_drop]; omega
        rw [ih g (l.drop k) hdrop1 hdrop2]

theorem utf8ValidUpTo_some {l : List Nat} {k : Nat}
    (h : utf8DecodeLen l = some k) :
    utf8ValidUpTo l = k + utf8ValidUpTo (l.drop k) := by
  have hk := utf8DecodeLen_pos h
  unfold utf8ValidUpTo
  cases hl : l.length with
  | zero =>
    have : l = [] := List.eq_nil_of_length_eq_zero hl
    subst this
    simp [utf8DecodeLen] at h
  | succ m =>
    simp only [utf8ValidUpToF, h]
    congr 1
    apply utf8ValidUpToF_congr
    · simp only [List.length_drop]; omega
    · exact le_rfl

theorem utf8ValidUpTo_none {l : List Nat} (h : utf8DecodeLen l = none) :
    utf8ValidUpTo l = 0 := by
  unfold utf8ValidUpTo
  cases hl : l.length with
  | zero => rfl
  | succ m => simp only [utf8ValidUpToF, h]

theorem utf8ValidUpTo_le_length_aux :
    ∀ (n : Nat) (l : List Nat), l.length ≤ n → utf8ValidUpTo l ≤ l.length := by
  intro n
  induction n with
  | zero =>
    intro l h
    have hl : l = [] := List.eq_nil_of_length_eq_zero (Nat.le_zero.mp h)
    subst hl
    simp [utf8ValidUpTo_nil]
  | succ m ih =>
    intro l h
    cases hd : utf8DecodeLen l with
    | none => rw [utf8ValidUpTo_none hd]; exact Nat.zero_le _
    | some k =>
      rw [utf8ValidUpTo_some hd]
      have hk := utf8DecodeLen_pos hd
      have hdrop := ih (l.drop k) (by simp only [List.length_drop]; omega)
      simp only [List.length_drop] at hdrop
      omega

theorem utf8ValidUpTo_le_length (l : List Nat) :
    utf8ValidUpTo l ≤ l.length :=
  utf8ValidUpTo_le_length_aux l.length l le_rfl

/-- Greedy UTF-8 validation is self-synchronizing: the longest valid prefix of
`l ++ r` is the longest valid prefix of `l` followed by the longest valid
prefix of `l`'s leftover bytes glued to `r`. -/
theorem utf8ValidUpTo_append_aux :
    ∀ (n : Nat) (l r : List Nat), l.length ≤ n →
    utf8ValidUpTo (l ++ r) =
      utf8ValidUpTo l + utf8ValidUpTo (l.drop (utf8ValidUpTo l) ++ r) := by
  intro n
  induction n with
  | zero =>
    intro l r h
    have hl : l = [] := List.eq_nil_of_length_eq_zero (Nat.le_zero.mp h)
    subst hl
    simp [utf8ValidUpTo_nil]
  | succ m ih =>
    intro l r h
    cases hd : utf8DecodeLen l with
    | none =>
      rw [utf8ValidUpTo_none hd]
      simp
    | some k =>
      have hk := utf8DecodeLen_pos hd
      have hdA : utf8DecodeLen (l ++ r) = some k := utf8DecodeLen_append hd
      rw [utf8ValidUpTo_some hd, utf8ValidUpTo_some hdA]
      rw [List.drop_append_eq_append_drop, Nat.sub_eq_zero_of_le hk.2,
        List.drop_zero]
      rw [ih (l.drop k) r (by simp only [List.length_drop]; omega)]
      rw [List.drop_drop]
      omega

theorem utf8ValidUpTo_append (l r : List Nat) :
    utf8ValidUpTo (l ++ r) =
      utf8ValidUpTo l + utf8ValidUpTo (l.drop (utf8ValidUpTo l) ++ r) :=
  utf8ValidUpTo_append_aux l.length l r le_rfl

/-- The leftover after the longest valid prefix has no valid prefix of its
own: the carry kept by the reader thread never hides decodable text. -/
theorem utf8ValidUpTo_drop_self (l : List Nat) :
    utf8ValidUpTo (l.drop (utf8ValidUpTo l)) = 0 := by
  have h := utf8ValidUpTo_append l []
  simp only [List.append_nil] at h
  omega

theorem utf8ValidUpTo_take_aux :
    ∀ (n : Nat) (l : List Nat), l.length ≤ n →
    utf8ValidUpTo (l.take (utf8ValidUpTo l)) = utf8ValidUpTo l := by
  intro n
  induction n with
  | zero =>
    intro l h
    have hl : l = [] := List.eq_nil_of_length_eq_zero (Nat.le_zero.mp h)
    subst hl
    simp [utf8ValidUpTo_nil]
  | succ m ih =>
    intro l h
    cases hd : utf8DecodeLen l with
    | none => rw [utf8ValidUpTo_none hd]; simp [utf8ValidUpTo_nil]
    | some k =>
      have hk := utf8DecodeLen_pos hd
      rw [utf8ValidUpTo_some hd]
      rw [List.take_add]
      have hdT : utf8DecodeLen
          (l.take k ++ (l.drop k).take (utf8ValidUpTo (l.drop k))) = some k :=
        utf8DecodeLen_take_append _ hd
      rw [utf8ValidUpTo_some hdT]
      congr 1
      have hlen : (l.take k).length = k := by
        simp only [List.length_take]; omega
      have hA : (l.take k).drop k = [] :=
        List.drop_eq_nil_of_le (by omega)
      rw [List.drop_append_eq_append_drop, hA, List.nil_append, hlen,
        Nat.sub_self, List.drop_zero]
      exact ih (l.drop k) (by simp only [List.length_drop]; omega)

theorem utf8ValidUpTo_take (l : List Nat) :
    utf8ValidUpTo (l.take (utf8ValidUpTo l)) = utf8ValidUpTo l :=
  utf8ValidUpTo_take_aux l.length l le_rfl

/-- The batch the reader sends is always valid UTF-8. -/
theorem utf8Valid_take (l : List Nat) :
    Utf8Valid (l.take (utf8ValidUpTo l)) := by
  unfold Utf8Valid
  rw [utf8ValidUpTo_take]
  simp only [List.length_take]
  have := utf8ValidUpTo_le_length l
  omega

/-! ## Lemmas on the association lists of the registry -/

theorem lookupA_insertA_self {α : Type} (m : List (String × α))
    (k : String) (v : α) : lookupA (insertA m k v) k = some v := by
  simp [lookupA, insertA]

theorem lookupA_nil {α : Type} (k : String) :
    lookupA ([] : List (String × α)) k = none := rfl

/-! ## Lemmas on the reader/emitter pipeline -/

theorem readerRun_nil (carry : List Nat) :
    readerRun carry [] = ([], carry) := rfl

theorem readerRun_cons (carry c : List Nat) (rest : List (List Nat)) :
    readerRun carry (c :: rest) =
      ((readerStep carry c).1 ++ (readerRun (readerStep carry c).2 rest).1,
       (readerRun (readerStep carry c).2 rest).2) := rfl

theorem readerStep_fst_flatten (carry c : List Nat) :
    (readerStep carry c).1.flatten =
      (carry ++ c).take (utf8ValidUpTo (carry ++ c)) := by
  simp only [readerStep]
  split_ifs with h
  · simp
  · have hz : utf8ValidUpTo (carry ++ c) = 0 := by omega
    simp [hz]

theorem readerStep_snd (carry c : List Nat) :
    (readerStep carry c).2 =
      (carry ++ c).drop (utf8ValidUpTo (carry ++ c)) := rfl

/-- Unconditional conservation: the chunks the reader has sent, flattened,
followed by its current carry, are exactly the bytes read so far.  No byte is
duplicated, dropped, or reordered. -/
theorem readerRun_content : ∀ (chunks : List (List Nat)) (carry : List Nat),
    (readerRun carry chunks).1.flatten ++ (readerRun carry chunks).2 =
      carry ++ chunks.flatten := by
  intro chunks
  induction chunks with
  | nil => intro carry; simp [readerRun_nil]
  | cons c rest ih =>
    intro carry
    rw [readerRun_cons]
    simp only [List.flatten_append, List.append_assoc]
    rw [readerStep_fst_flatten, ih, readerStep_snd]
    rw [← List.append_assoc, List.take_append_drop]
    simp [List.append_assoc]

/-- When the whole byte stream is valid UTF-8, the reader finishes with an
empty carry: every byte read was eventually delivered. -/
theorem readerRun_carry_nil :
    ∀ (chunks : List (List Nat)) (carry : List Nat),
    utf8ValidUpTo carry = 0 → Utf8Valid (carry ++ chunks.flatten) →
    (readerRun carry chunks).2 = [] := by
  intro chunks
  induction chunks with
  | nil =>
    intro carry h0 hv
    simp only [List.flatten_nil, List.append_nil] at hv
    unfold Utf8Valid at hv
    rw [readerRun_nil]
    have hlen : carry.length = 0 := by omega
    exact List.eq_nil_of_length_eq_zero hlen
  | cons c rest ih =>
    intro carry h0 hv
    rw [readerRun_cons]
    show (readerRun (readerStep carry c).2 rest).2 = []
    apply ih
    · rw [readerStep_snd]
      exact utf8ValidUpTo_drop_self (carry ++ c)
    · rw [readerStep_snd]
      unfold Utf8Valid at hv ⊢
      rw [List.flatten_cons, ← List.append_assoc] at hv
      have hsync := utf8ValidUpTo_append (carry ++ c) rest.flatten
      have hle1 := utf8ValidUpTo_le_length (carry ++ c)
      have hle2 := utf8ValidUpTo_le_length
        ((carry ++ c).drop (utf8ValidUpTo (carry ++ c)) ++ rest.flatten)
      simp only [List.length_append, List.length_drop] at hv hle1 hle2 ⊢
      omega

/-- Every chunk the reader sends on the channel is valid UTF-8. -/
theorem readerRun_outputs_valid :
    ∀ (chunks : List (List Nat)) (carry o : List Nat),
    o ∈ (readerRun carry chunks).1 → Utf8Valid o := by
  intro chunks
  induction chunks with
  | nil =>
    intro carry o ho
    rw [readerRun_nil] at ho
    simp at ho
  | cons c rest ih =>
    intro carry o ho
    rw [readerRun_cons] at ho
    rcases List.mem_append.mp ho with h | h
    · simp only [readerStep] at h
      split_ifs at h with hz
      · simp at h
        subst h
        exact utf8Valid_take _
      · simp at h
    · exact ih _ o h

theorem flatten_map_flatten (groups : List (List (List Nat))) :
    (groups.map (fun g => g.flatten)).flatten = groups.flatten.flatten := by
  induction groups with
  | nil => rfl
  | cons g rest ih => simp [ih]

/-! ## Claim theorems -/

/-- C2: for every sequence of byte chunks read from the PTY whose
concatenation is valid UTF-8, and every coalescing of the reader's channel
chunks into consecutive batches, the concatenation of all delivered text
batches equals the bytes read — no byte duplicated, dropped, or reordered,
the reader's carry is empty at the end (a read boundary splitting a
multi-byte character is healed), and every channel chunk is valid UTF-8. -/
theorem pipeline_delivers_valid_stream (reads : List (List Nat))
    (groups : List (List (List Nat)))
    (hvalid : Utf8Valid reads.flatten)
    (hgroups : groups.flatten = (readerRun [] reads).1) :
    (emitterBatches groups).flatten = reads.flatten ∧
    (readerRun [] reads).2 = [] ∧
    ∀ b ∈ (readerRun [] reads).1, Utf8Valid b := by
  have hcarry : (readerRun [] reads).2 = [] := by
    apply readerRun_carry_nil
    · exact utf8ValidUpTo_nil
    · simpa using hvalid
  have hcontent := readerRun_content reads []
  rw [hcarry, List.append_nil, List.nil_append] at hcontent
  refine ⟨?_, hcarry, fun b hb => readerRun_outputs_valid reads [] b hb⟩
  unfold emitterBatches
  rw [flatten_map_flatten, hgroups, hcontent]

/-- C2 witness: the euro sign `U+20AC` (`E2 82 AC`) split across two reads is
reassembled and delivered exactly once. -/
theorem pipeline_delivers_valid_stream_witness :
    Utf8Valid ([[0xE2, 0x82], [0xAC]] : List (List Nat)).flatten ∧
    ([[[0xE2, 0x82, 0xAC]]] : List (List (List Nat))).flatten =
      (readerRun [] [[0xE2, 0x82], [0xAC]]).1 ∧
    (emitterBatches [[[0xE2, 0x82, 0xAC]]]).flatten =
      ([[0xE2, 0x82], [0xAC]] : List (List Nat)).flatten :=
  ⟨by decide, by decide,
    (pipeline_delivers_valid_stream [[0xE2, 0x82], [0xAC]]
      [[[0xE2, 0x82, 0xAC]]] (by decide) (by decide)).1⟩

/-- C3: the activity state machine has exactly the specified transition
table over states `{inactive, active}` (`active : Bool`), starts inactive,
and the monitor thread stops right after processing a `Disconnected`
signal. -/
theorem activity_state_machine_table (sid : String) :
    (∀ signals, activityMonitorRun sid signals =
      activityMonitorGo sid false signals) ∧
    update_activity_state sid false .Data = (true, some ⟨sid, true⟩) ∧
    update_activity_state sid true .Data = (true, none) ∧
    update_activity_state sid true .Timeout = (false, some ⟨sid, false⟩) ∧
    update_activity_state sid false .Timeout = (false, none) ∧
    update_activity_state sid true .Disconnected = (false, some ⟨sid, false⟩) ∧
    update_activity_state sid false .Disconnected = (false, none) ∧
    (∀ (a : Bool) (rest : List ActivitySignal),
      activityMonitorGo sid a (.Disconnected :: rest) =
        (update_activity_state sid a .Disconnected).2.toList) :=
  ⟨fun _ => rfl, rfl, rfl, rfl, rfl, rfl, rfl,
    fun a rest => by simp [activityMonitorGo]⟩

/-- C8: the send helper tries a non-blocking send, falls back to a blocking
send when the channel is full, returns `false` exactly when the channel is
disconnected, and never drops or reorders a chunk while the receiver is
alive. -/
theorem send_output_chunk_contract (c : Chan) (data : List Nat) :
    ((send_output_chunk c data).1 = false ↔ c.connected = false) ∧
    (c.connected = true →
      (send_output_chunk c data).2.queue = c.queue ++ [data]) ∧
    (c.connected = false → (send_output_chunk c data).2 = c) := by
  cases hc : c.connected with
  | false =>
    simp [send_output_chunk, Chan.trySend, Chan.blockingSend, hc]
  | true =>
    refine ⟨?_, fun _ => ?_, fun h => by simp [hc] at h⟩
    · simp only [send_output_chunk, Chan.trySend, Chan.blockingSend, hc]
      split_ifs <;> simp_all
    · simp only [send_output_chunk, Chan.trySend, Chan.blockingSend, hc]
      split_ifs <;> simp_all

/-- C8 witness: on a connected channel with space the chunk is enqueued; the
helper only reports `false` on a disconnected channel. -/
theorem send_output_chunk_contract_witness :
    (⟨[], 256, true⟩ : Chan).connected = true ∧
    (send_output_chunk ⟨[], 256, true⟩ [65]).2.queue = [] ++ [[65]] :=
  ⟨rfl, (send_output_chunk_contract ⟨[], 256, true⟩ [65]).2.1 rfl⟩

/-- C1 (against the claim): a successful `kill` of a live session emits one
exit event, and the emitter thread's cleanup — which always runs once the
killed child's PTY reaches EOF — emits a second one for the same session id,
because pty.rs:383-405 discards the result of `remove_session` and emits
unconditionally.  Two exit events are observed where the claim requires
exactly one. -/
theorem kill_then_cleanup_emits_two_exit_events :
    ((emitterCleanup
        (kill { sessions := [("s", ⟨[], [], 80, 24, some ⟨true⟩⟩)],
                session_project_paths := [("s", "/p")],
                exitEvents := [] } "s").2
        "s" ⟨[], [], 80, 24, some ⟨true⟩⟩).exitEvents.filter
      (fun e => e.session_id = "s")).length = 2 := by decide

/-- C4: `signal_foreground` fails with a not-found error when the session is
absent, and otherwise returns success regardless of the child-enumeration
outcome and of the per-child delivery outcomes.  (Modelled from the spec; see
`signal_foreground`.) -/
theorem signal_foreground_contract (st : ManagerState) (sid : String)
    (children : Except Unit (List Nat)) (deliver : Nat → Bool) :
    (get_session st sid = none →
      signal_foreground st sid children deliver =
        .error ("Session not found: " ++ sid)) ∧
    (∀ sess, get_session st sid = some sess →
      signal_foreground st sid children deliver = .ok ()) := by
  constructor
  · intro h
    unfold signal_foreground
    rw [h]
  · intro sess h
    unfold signal_foreground
    rw [h]
    cases children <;> rfl

/-- C4 witness: absent session → not-found error; present session → success
even when child enumeration failed. -/
theorem signal_foreground_contract_witness :
    get_session ⟨[], [], []⟩ "s" = none ∧
    signal_foreground ⟨[], [], []⟩ "s" (.error ()) (fun _ => false) =
      .error ("Session not found: " ++ "s") ∧
    get_session ⟨[("s", ⟨[], [], 0, 0, none⟩)], [], []⟩ "s" =
      some ⟨[], [], 0, 0, none⟩ ∧
    signal_foreground ⟨[("s", ⟨[], [], 0, 0, none⟩)], [], []⟩ "s"
      (.error ()) (fun _ => false) = .ok () :=
  ⟨rfl, (signal_foreground_contract ⟨[], [], []⟩ "s" (.error ())
      (fun _ => false)).1 rfl,
    rfl, (signal_foreground_contract ⟨[("s", ⟨[], [], 0, 0, none⟩)], [], []⟩
      "s" (.error ()) (fun _ => false)).2 ⟨[], [], 0, 0, none⟩ rfl⟩

/-- C5: after the registry effect of a successful `spawn`, the session is in
both maps, and `write`, `resize` and `kill`'s removal all find it; and in
`spawn`'s step order both insertions come before every worker-thread start
and before the return. -/
theorem spawn_registers_before_returning (st : ManagerState) (sid : String)
    (sess : PtySession) (path : String) (data : List Nat) (c r : Nat)
    (startup_command : Option String) :
    get_session (spawnRegister st sid sess path) sid = some sess ∧
    project_path_for_session (spawnRegister st sid sess path) sid =
      some path ∧
    (write (spawnRegister st sid sess path) sid data).1 = .ok () ∧
    (resize (spawnRegister st sid sess path) sid c r).1 = .ok () ∧
    (remove_session (spawnRegister st sid sess path) sid).1 = some sess ∧
    ((spawnSteps startup_command).indexOf .insertSession <
      (spawnSteps startup_command).indexOf .startActivityThread ∧
     (spawnSteps startup_command).indexOf .insertSession <
      (spawnSteps startup_command).indexOf .startReaderThread ∧
     (spawnSteps startup_command).indexOf .insertSession <
      (spawnSteps startup_command).indexOf .startEmitterThread ∧
     (spawnSteps startup_command).indexOf .insertProjectPath <
      (spawnSteps startup_command).indexOf .startActivityThread ∧
     (spawnSteps startup_command).indexOf .insertProjectPath <
      (spawnSteps startup_command).indexOf .startReaderThread ∧
     (spawnSteps startup_command).indexOf .insertProjectPath <
      (spawnSteps startup_command).indexOf .startEmitterThread ∧
     (spawnSteps startup_command).indexOf .insertSession <
      (spawnSteps startup_command).indexOf .returnOk) := by
  have hg : get_session (spawnRegister st sid sess path) sid = some sess :=
    lookupA_insertA_self _ _ _
  have hp : project_path_for_session (spawnRegister st sid sess path) sid =
      some path := lookupA_insertA_self _ _ _
  refine ⟨hg, hp, ?_, ?_, hg, ?_⟩
  · unfold write
    rw [hg]
  · unfold resize
    rw [hg]
  · cases startup_command with
    | none => decide
    | some s =>
      rw [show spawnSteps (some s) = spawnSteps (some "") from rfl]
      decide

/-- C6: `kill` on an absent session id returns success and leaves the whole
manager state (both registry maps and the event log) unchanged. -/
theorem kill_absent_is_noop (st : ManagerState) (sid : String)
    (h : get_session st sid = none) :
    kill st sid = (.ok (), st) := by
  unfold kill remove_session
  rw [show lookupA st.sessions sid = none from h]

/-- C6 witness: killing a never-spawned session id on an empty registry. -/
theorem kill_absent_is_noop_witness :
    get_session ⟨[], [], []⟩ "s" = none ∧
    kill ⟨[], [], []⟩ "s" = (.ok (), ⟨[], [], []⟩) :=
  ⟨rfl, kill_absent_is_noop ⟨[], [], []⟩ "s" rfl⟩

/-- C7: `write` and `resize` return a not-found error (leaving the state
unchanged, no panic) when the session id is absent; on a present session,
`write` appends all bytes and flushes them before returning and `resize`
applies the new dimensions. -/
theorem write_resize_contract (st : ManagerState) (sid : String)
    (data : List Nat) (c r : Nat) :
    (get_session st sid = none →
      write st sid data = (.error ("Session not found: " ++ sid), st) ∧
      resize st sid c r = (.error ("Session not found: " ++ sid), st)) ∧
    (∀ sess, get_session st sid = some sess →
      write st sid data = (.ok (), { st with sessions := insertA st.sessions sid ⟨[], sess.flushed ++ (sess.buffered ++ data), sess.cols, sess.rows, sess.waitResult⟩ }) ∧
      resize st sid c r = (.ok (), { st with sessions := insertA st.sessions sid ⟨sess.buffered, sess.flushed, c, r, sess.waitResult⟩ })) := by
  constructor
  · intro h
    constructor
    · unfold write
      rw [h]
    · unfold resize
      rw [h]
  · intro sess h
    constructor
    · unfold write
      rw [h]
    · unfold resize
      rw [h]

/-- C7 witness: not-found on an empty registry; successful write on a live
session. -/
theorem write_resize_contract_witness :
    get_session ⟨[], [], []⟩ "x" = none ∧
    (write ⟨[], [], []⟩ "x" [10]).1 = .error ("Session not found: " ++ "x") ∧
    get_session ⟨[("s", ⟨[], [], 80, 24, none⟩)], [("s", "/p")], []⟩ "s" =
      some ⟨[], [], 80, 24, none⟩ ∧
    (write ⟨[("s", ⟨[], [], 80, 24, none⟩)], [("s", "/p")], []⟩ "s" [10]).1 =
      .ok () :=
  ⟨rfl,
    congrArg Prod.fst ((write_resize_contract ⟨[], [], []⟩ "x" [10] 1 1).1 rfl).1,
    rfl,
    congrArg Prod.fst
      (((write_resize_contract ⟨[("s", ⟨[], [], 80, 24, none⟩)], [("s", "/p")], []⟩
        "s" [10] 1 1).2 ⟨[], [], 80, 24, none⟩ rfl).1)⟩

/-- C9: on both termination paths the emitted exit event carries exit code 0
when the OS status indicates success and 1 in every other case (including a
failed wait), and its signal field is always `none`. -/
theorem exit_event_code_and_signal (st : ManagerState) (sid : String)
    (sess : PtySession) (h : get_session st sid = some sess) :
    (kill st sid).2.exitEvents =
      st.exitEvents ++ [⟨sid, exitCodeFromWait sess.waitResult, none⟩] ∧
    (emitterCleanup st sid sess).exitEvents =
      st.exitEvents ++ [⟨sid, exitCodeFromWait sess.waitResult, none⟩] ∧
    (∀ s : ChildStatus,
      exitCodeFromWait (some s) = if s.success then 0 else 1) ∧
    exitCodeFromWait none = 1 := by
  refine ⟨?_, rfl, fun s => rfl, rfl⟩
  unfold kill remove_session
  rw [show lookupA st.sessions sid = some sess from h]

/-- C9 witness: a failed child produces exit code 1 with no signal on the
kill path. -/
theorem exit_event_code_and_signal_witness :
    get_session ⟨[("s", ⟨[], [], 0, 0, some ⟨false⟩⟩)], [], []⟩ "s" =
      some ⟨[], [], 0, 0, some ⟨false⟩⟩ ∧
    (kill ⟨[("s", ⟨[], [], 0, 0, some ⟨false⟩⟩)], [], []⟩ "s").2.exitEvents =
      [] ++ [⟨"s", exitCodeFromWait (some ⟨false⟩), none⟩] :=
  ⟨rfl, (exit_event_code_and_signal
    ⟨[("s", ⟨[], [], 0, 0, some ⟨false⟩⟩)], [], []⟩ "s"
    ⟨[], [], 0, 0, some ⟨false⟩⟩ rfl).1⟩

/-- C10 counterexample: with the SHELL environment variable set to the empty
string, the Unix default shell is the empty string, so spawn's fallback for
an empty shell argument still yields an empty command name. -/
theorem empty_shell_var_empty_command :
    default_shell_unix (some "") = "" ∧
    shell_path "" (default_shell_unix (some "")) = "" ∧
    (shell_path "" (default_shell_unix (some ""))).isEmpty = true :=
  ⟨rfl, rfl, rfl⟩

/-- C10 amended: an empty shell argument is replaced by the platform default
shell (`$SHELL` with fallback `/bin/zsh` on Unix, `%COMSPEC%` with fallback
`powershell.exe` on Windows) and a non-empty argument is used as given; the
launched command name is non-empty provided the default-shell variable, when
set, is non-empty (an empty variable value is passed through unchanged). -/
theorem shell_fallback (shell : String) (v : Option String) :
    (shell.isEmpty = false →
      shell_path shell (default_shell_unix v) = shell ∧
      shell_path shell (default_shell_windows v) = shell) ∧
    (shell.isEmpty = true →
      shell_path shell (default_shell_unix v) = default_shell_unix v ∧
      shell_path shell (default_shell_windows v) = default_shell_windows v) ∧
    default_shell_unix none = "/bin/zsh" ∧
    default_shell_windows none = "powershell.exe" ∧
    (∀ s, default_shell_unix (some s) = s) ∧
    (∀ s, default_shell_windows (some s) = s) ∧
    ((∀ s, v = some s → s.isEmpty = false) →
      (shell_path shell (default_shell_unix v)).isEmpty = false ∧
      (shell_path shell (default_shell_windows v)).isEmpty = false) := by
  refine ⟨?_, ?_, rfl, rfl, fun s => rfl, fun s => rfl, ?_⟩
  · intro h
    constructor <;> simp [shell_path, h]
  · intro h
    constructor <;> simp [shell_path, h]
  · intro h
    cases hse : shell.isEmpty with
    | false => constructor <;> simp [shell_path, hse]
    | true =>
      have hu : (default_shell_unix v).isEmpty = false := by
        cases v with
        | none => rfl
        | some s => exact h s rfl
      have hw : (default_shell_windows v).isEmpty = false := by
        cases v with
        | none => rfl
        | some s => exact h s rfl
      constructor <;> simp [shell_path, hse, hu, hw]

/-- C10 amended witness: empty shell argument with SHELL unset falls back to
`/bin/zsh`, a non-empty command name. -/
theorem shell_fallback_witness :
    ("" : String).isEmpty = true ∧
    shell_path "" (default_shell_unix none) = default_shell_unix none ∧
    (shell_path "" (default_shell_unix none)).isEmpty = false :=
  ⟨rfl, ((shell_fallback "" none).2.1 rfl).1,
    ((shell_fallback "" none).2.2.2.2.2.2 (fun s h => nomatch h)).1⟩

end Pty
